import Mathlib

/-!
Verification of the `TrainLoop` training-loop controller from
`src/dnadiffusion/utils/train_util.py`.

The Python class is shallowly embedded: tensors and collaborator state are
abstracted to association lists of rational-valued parameters, and the
side-effecting control loop is embedded as a pure function producing the
trace (list) of observable collaborator calls, parameterised by the
accelerator's `is_main_process` predicate and by the number of batches the
data loader yields per epoch.
-/

namespace DNADiffusion

/-- A state dict: named parameters with rational values (abstracting tensors). -/
abbrev StateDict := List (String × ℚ)

/-- Optimizer internal state (opaque to this fragment; held as named values). -/
abbrev OptState := List (String × ℚ)

/-- A table of synthetic sequences, as returned by the external `create_sample`. -/
abbrev Table := List String

/-- A model: its parameters plus the autograd tracking flag
(`requires_grad_` in the source). -/
structure Model where
  params : StateDict
  requires_grad : Bool
deriving DecidableEq

/-- The checkpoint record built in `TrainLoop.save_model` (train_util.py:176-181):
exactly the four entries of `checkpoint_dict`. -/
structure Checkpoint where
  model : StateDict
  optimizer : OptState
  epoch : ℕ
  ema_model : StateDict
deriving DecidableEq

/-- The constructor configuration of `TrainLoop.__init__` (train_util.py:19-38).
The optional callables `metric_function` and `save_lora_function` are embedded
by their presence (`None`/falsy versus supplied), which is all the control flow
inspects. -/
structure Config where
  epochs : ℕ := 10000
  log_step_show : ℕ := 50
  sample_epoch : ℕ := 500
  save_epoch : ℕ := 500
  model_name : String := "model_48k_sequences_per_group_K562_hESCT0_HepG2_GM12878_12k"
  num_sampling_to_compare_cells : ℕ := 1000
  metric_function : Bool := false
  selective_sampling_number : Option ℕ := none
  save_lora_function : Bool := false
  lora_path : String := ""
  lora_save_epoch : ℕ := 50
deriving DecidableEq

/-- The data snapshots the loop hands to collaborators: state dicts captured at
save time and the synthetic table returned by the external sampler. -/
structure RunData where
  model_sd : StateDict
  opt_sd : OptState
  ema_sd : StateDict
  synt_df : Table
deriving DecidableEq

/-- Observable collaborator calls made by the control loop. -/
inductive Event where
  /-- `accelerator.prepare(...)` (train_util.py:76). -/
  | prepare
  /-- `accelerator.init_trackers(...)` (train_util.py:80). -/
  | initTrackers
  /-- `self.model.train()` at the top of epoch `epoch` (train_util.py:86). -/
  | modelTrain (epoch : ℕ)
  /-- One gradient step, tagged with the global step it was assigned
  (train_util.py:90-92). -/
  | trainStep (global_step : ℕ)
  /-- `self.ema.step_ema(...)` inside `train_step` (train_util.py:124). -/
  | emaUpdate (global_step : ℕ)
  /-- `self.log_step(loss, epoch)` telemetry write (train_util.py:96,131). -/
  | logStep (global_step : ℕ) (epoch : ℕ)
  /-- The `create_sample(...)` call (train_util.py:152-160) with the arguments
  this fragment computes: `group_number`, `number_of_samples`,
  `cond_weight_to_metric`. -/
  | sampleCall (group_number : Option ℕ) (number_of_samples : ℕ) (cond_weight : ℕ)
  /-- `self.metric_function(input_fasta=...)` (train_util.py:163). -/
  | metricCall (input_fasta : String)
  /-- `torch.save(checkpoint_dict, path)` (train_util.py:182-185). -/
  | saveModel (path : String) (cp : Checkpoint)
  /-- `self.save_lora_function(self.model.model, path)` (train_util.py:194). -/
  | loraSave (path : String)
deriving DecidableEq

/-- Python's `str.replace('//', '/')`: one left-to-right pass replacing
non-overlapping occurrences of a double slash by a single slash. -/
def collapse_double_slash : List Char → List Char
  | [] => []
  | [c] => [c]
  | a :: b :: rest =>
    if a = '/' ∧ b = '/' then '/' :: collapse_double_slash rest
    else a :: collapse_double_slash (b :: rest)

/-- The path handed to the LoRA saver by `TrainLoop.save_lora_model`
(train_util.py:188-194): `path_use + f'/{str(epoch)}_filepath.pth'` with
`.replace('//','/')` applied, where `path_use` is `'.'` when `lora_path` is
empty and `lora_path` otherwise. -/
def save_lora_model_path (lora_path : String) (epoch : ℕ) : String :=
  let path_use := if lora_path = "" then "." else lora_path
  let final_path_name_and_file := path_use ++ "/" ++ toString epoch ++ "_filepath.pth"
  ⟨collapse_double_slash final_path_name_and_file.data⟩

/-- The checkpoint path of `TrainLoop.save_model`
(train_util.py:184): `f"epoch_{epoch}_{self.model_name}.pt"`. -/
def save_model_path (epoch : ℕ) (model_name : String) : String :=
  "epoch_" ++ toString epoch ++ "_" ++ model_name ++ ".pt"

/-- `TrainLoop.save_model` (train_util.py:175-185): builds `checkpoint_dict`
from the model state dict, the optimizer state dict, the epoch and the EMA
state dict, and writes it to the epoch/model-name derived path. -/
def TrainLoop.save_model (cfg : Config) (rd : RunData) (epoch : ℕ) : Event :=
  Event.saveModel (save_model_path epoch cfg.model_name)
    { model := rd.model_sd
      optimizer := rd.opt_sd
      epoch := epoch
      ema_model := rd.ema_sd }

/-- `TrainLoop.sample` (train_util.py:144-163): calls `create_sample` with
`group_number = selective_sampling_number`,
`number_of_samples = int(num_sampling_to_compare_cells / 10)` and
`cond_weight_to_metric = 1`; then, when a metric function was supplied, calls
it with the literal keyword argument `input_fasta="synthetic_motifs.fasta"`.
The produced table `synt_df` is only printed, never forwarded. -/
def TrainLoop.sample (cfg : Config) (synt_df : Table) : List Event :=
  [Event.sampleCall cfg.selective_sampling_number
      (cfg.num_sampling_to_compare_cells / 10) 1]
  ++ (if cfg.metric_function then [Event.metricCall "synthetic_motifs.fasta"] else [])

/-- One iteration of the batch loop (train_util.py:89-96): assign
`global_step = epoch * len(train_dl) + step`, run `train_step` (which performs
the EMA update on the main process, train_util.py:123-124), then log when
`global_step % log_step_show == 0` on the main process. `B` is
`len(self.train_dl)`. -/
def TrainLoop.stepEvents (cfg : Config) (is_main : Bool) (B epoch step : ℕ) : List Event :=
  [Event.trainStep (epoch * B + step)]
  ++ (if is_main then [Event.emaUpdate (epoch * B + step)] else [])
  ++ (if (epoch * B + step) % cfg.log_step_show == 0 && is_main then
        [Event.logStep (epoch * B + step) epoch] else [])

/-- The body of one epoch of `TrainLoop.train_loop` (train_util.py:86-109):
`model.train()`, the batch loop, then the three independently guarded phases
Sampling, Saving and LoRA export. -/
def TrainLoop.epochEvents (cfg : Config) (is_main : Bool) (B : ℕ) (rd : RunData)
    (epoch : ℕ) : List Event :=
  Event.modelTrain epoch
    :: (List.range B).flatMap (TrainLoop.stepEvents cfg is_main B epoch)
    ++ (if epoch % cfg.sample_epoch == 0 && is_main then
          TrainLoop.sample cfg rd.synt_df else [])
    ++ (if epoch % cfg.save_epoch == 0 && is_main then
          [TrainLoop.save_model cfg rd epoch] else [])
    ++ (if cfg.save_lora_function && (epoch % cfg.lora_save_epoch == 0) && is_main then
          [Event.loraSave (save_lora_model_path cfg.lora_path epoch)] else [])

/-- `TrainLoop.train_loop` (train_util.py:74-109): prepare, init trackers on the
main process, then `for epoch in range(self.start_epoch, self.epochs + 1)`. -/
def TrainLoop.train_loop (cfg : Config) (is_main : Bool) (B : ℕ) (rd : RunData)
    (start_epoch : ℕ) : List Event :=
  Event.prepare
    :: (if is_main then [Event.initTrackers] else [])
    ++ (List.range' start_epoch (cfg.epochs + 1 - start_epoch)).flatMap
        (TrainLoop.epochEvents cfg is_main B rd)

/-- Modelled from the spec: the contract of the external
`torch.nn.Module.load_state_dict(sd, strict)` consumed at train_util.py:205,210
(spec §4.8, §7): a strict load fails when the checkpoint's key set differs from
the module's; a non-strict load succeeds, updating every parameter present in
the checkpoint and leaving missing ones at their current value. -/
def load_state_dict (current ckpt : StateDict) (strict : Bool) : Except String StateDict :=
  if strict &&
      !((current.map Prod.fst).all (fun k => (ckpt.map Prod.fst).contains k) &&
        (ckpt.map Prod.fst).all (fun k => (current.map Prod.fst).contains k)) then
    Except.error "Error(s) in loading state_dict"
  else
    Except.ok (current.map (fun p => (p.1, (List.lookup p.1 ckpt).getD p.2)))

/-- Modelled from the spec: the EMA collaborator
(`dnadiffusion.utils.utils.EMA`, not under src) per spec §4.3: for each
parameter pair (shadow, current), shadow ← decay*shadow + (1−decay)*current. -/
def EMA.update_average (beta old new : ℚ) : ℚ := beta * old + (1 - beta) * new

/-- Modelled from the spec: the per-tensor EMA step over the paired parameter
lists of the shadow and current models (spec §4.3). -/
def EMA.step_ema (beta : ℚ) (ema_params model_params : List ℚ) : List ℚ :=
  List.zipWith (fun s c => EMA.update_average beta s c) ema_params model_params

/-- The decay the source fixes at construction: `EMA(0.995)` (train_util.py:61). -/
def ema_decay : ℚ := 0.995

/-- The mutable bookkeeping state a `TrainLoop` instance holds after
`__init__` (train_util.py:39-72). `global_step` is `none` while the attribute
has not yet been assigned (it is first set inside `train_loop`,
train_util.py:90). -/
structure TrainLoopState where
  start_epoch : ℕ
  global_step : Option ℕ
  train_kl : ℚ
  test_kl : ℚ
  shuffle_kl : ℚ
  seq_similarity : ℚ
  model : Model
  ema_model : Option Model
  optimizer : OptState
deriving DecidableEq

/-- `TrainLoop.__init__` (train_util.py:39-72): builds the optimizer, on the
main process deep-copies the model into a frozen EMA shadow
(`copy.deepcopy(self.model).eval().requires_grad_(False)`), initializes the
metric fields to 1 and `start_epoch` to 1. The `global_step` attribute is not
assigned here. -/
def TrainLoop.init (model : Model) (opt : OptState) (is_main : Bool) : TrainLoopState :=
  { start_epoch := 1
    global_step := none
    train_kl := 1
    test_kl := 1
    shuffle_kl := 1
    seq_similarity := 1
    model := model
    ema_model := if is_main then some { params := model.params, requires_grad := false } else none
    optimizer := opt }

/-- `TrainLoop.load` (train_util.py:203-215): non-strict restore of the trained
model, optimizer-state restore, `start_epoch` set to the checkpoint's epoch,
strict restore of the EMA model on the main process, then `train_loop()` iff
`start_train`. Returns the updated state and the trace of the re-entered loop. -/
def TrainLoop.load (cfg : Config) (st : TrainLoopState) (is_main : Bool) (B : ℕ)
    (rd : RunData) (cp : Checkpoint) (start_train : Bool) :
    Except String (TrainLoopState × List Event) :=
  match load_state_dict st.model.params cp.model false with
  | Except.error e => Except.error e
  | Except.ok m =>
    let st1 : TrainLoopState :=
      { st with model := { st.model with params := m }
                optimizer := cp.optimizer
                start_epoch := cp.epoch }
    let res2 : Except String TrainLoopState :=
      match is_main with
      | true =>
        match st1.ema_model with
        | some em =>
          match load_state_dict em.params cp.ema_model true with
          | Except.error e => Except.error e
          | Except.ok em2 => Except.ok { st1 with ema_model := some { em with params := em2 } }
        | none => Except.error "AttributeError: ema_model"
      | false => Except.ok st1
    match res2 with
    | Except.error e => Except.error e
    | Except.ok st2 =>
      match start_train with
      | true => Except.ok (st2, TrainLoop.train_loop cfg is_main B rd cp.epoch)
      | false => Except.ok (st2, [])

/-- The kind of a sampling-phase entry (the `create_sample` call). -/
def Event.isSampling : Event → Bool
  | .sampleCall _ _ _ => true
  | _ => false

/-- The kind of a checkpoint write. -/
def Event.isSaving : Event → Bool
  | .saveModel _ _ => true
  | _ => false

/-- The kind of an adapter (LoRA) export. -/
def Event.isLoraExport : Event → Bool
  | .loraSave _ => true
  | _ => false

/-- The kind of an EMA shadow update. -/
def Event.isEmaUpdate : Event → Bool
  | .emaUpdate _ => true
  | _ => false

/-- Side effects the spec reserves to the main process: telemetry writes,
sampler calls (with their metric evaluation), checkpoint writes and adapter
exports. -/
def Event.isMainOnlySideEffect : Event → Bool
  | .initTrackers => true
  | .logStep _ _ => true
  | .sampleCall _ _ _ => true
  | .metricCall _ => true
  | .saveModel _ _ => true
  | .loraSave _ => true
  | _ => false

/-- The global step carried by a gradient-step event, if any. -/
def Event.trainStepOf : Event → Option ℕ
  | .trainStep gs => some gs
  | _ => none

/-- The epoch carried by a `model.train()` epoch-entry event, if any. -/
def Event.epochOf : Event → Option ℕ
  | .modelTrain e => some e
  | _ => none

/-- The fasta path carried by a metric-function call, if any. -/
def Event.metricArgOf : Event → Option String
  | .metricCall s => some s
  | _ => none

/-- The path carried by a checkpoint write, if any. -/
def Event.savePathOf : Event → Option String
  | .saveModel p _ => some p
  | _ => none

/-- The sequence of global steps assigned over a trace, in order. -/
def globalStepsOf (tr : List Event) : List ℕ := tr.filterMap Event.trainStepOf

/-- The sequence of epochs entered over a trace, in order. -/
def epochsOf (tr : List Event) : List ℕ := tr.filterMap Event.epochOf

/-! Helper lemmas about traces. -/

theorem any_flatMap {α β : Type} (l : List α) (f : α → List β) (p : β → Bool) :
    (l.flatMap f).any p = l.any (fun a => (f a).any p) := by
  induction l with
  | nil => simp
  | cons a t ih => simp [ih]

theorem filterMap_flatMap {α β γ : Type} (l : List α) (f : α → List β) (g : β → Option γ) :
    (l.flatMap f).filterMap g = l.flatMap (fun a => (f a).filterMap g) := by
  induction l with
  | nil => simp
  | cons a t ih => simp [ih]

theorem flatMap_singleton_fn {α β : Type} (l : List α) (f : α → β) :
    (l.flatMap fun a => [f a]) = l.map f := by
  induction l with
  | nil => simp
  | cons a t ih => simp [ih]

/-- C5: Saving at epoch E persists a checkpoint record containing exactly the
trained-model snapshot, the optimizer snapshot, the epoch number E and the
EMA snapshot, at path `epoch_{E}_{model_name}.pt`; the path depends only on
the epoch and model name, so a repeated save at the same epoch with the same
model name writes the same path. -/
theorem c5_checkpoint_record (cfg : Config) (rd rd2 : RunData) (e : ℕ) :
    TrainLoop.save_model cfg rd e =
      Event.saveModel ("epoch_" ++ toString e ++ "_" ++ cfg.model_name ++ ".pt")
        { model := rd.model_sd, optimizer := rd.opt_sd, epoch := e, ema_model := rd.ema_sd }
    ∧ Event.savePathOf (TrainLoop.save_model cfg rd e)
        = Event.savePathOf (TrainLoop.save_model cfg rd2 e) :=
  ⟨rfl, rfl⟩

/-- C6: the adapter-export path equals `{lora_path or "."}/{epoch}_filepath.pth`
with doubled separators collapsed; concretely `./7_filepath.pth` for an empty
`lora_path` and `out/7_filepath.pth` for `lora_path = "out/"`. -/
theorem c6_lora_path :
    save_lora_model_path "" 7 = "./7_filepath.pth"
    ∧ save_lora_model_path "out/" 7 = "out/7_filepath.pth"
    ∧ ∀ (lp : String) (e : ℕ),
        save_lora_model_path lp e =
          ⟨collapse_double_slash
            (((if lp = "" then "." else lp) ++ "/" ++ toString e ++ "_filepath.pth").data)⟩ :=
  ⟨by decide, by decide, fun lp e => rfl⟩

/-- C10: whenever Sampling runs with a metric function configured, the metric
function is invoked with the constant path "synthetic_motifs.fasta",
independently of the produced synthetic table (and of everything else); the
table is never forwarded. -/
theorem c10_metric_constant_path (cfg : Config) (synt_df : Table) :
    TrainLoop.sample cfg synt_df = TrainLoop.sample cfg []
    ∧ (TrainLoop.sample cfg synt_df).filterMap Event.metricArgOf
        = (if cfg.metric_function then ["synthetic_motifs.fasta"] else []) := by
  refine ⟨rfl, ?_⟩
  cases h : cfg.metric_function <;>
    simp [TrainLoop.sample, h, Event.metricArgOf]

/-- C3: the EMA update is the per-parameter affine combination
0.995*shadow + 0.005*current with the decay fixed at 0.995, and it is applied
(on the main process) at every gradient step, from the very first, with no
warm-up skip. -/
theorem c3_ema_update :
    (∀ (ss cs : List ℚ),
      EMA.step_ema ema_decay ss cs
        = List.zipWith (fun s c => (0.995 : ℚ) * s + (0.005 : ℚ) * c) ss cs)
    ∧ ∀ (cfg : Config) (B e s : ℕ),
        (TrainLoop.stepEvents cfg true B e s).countP Event.isEmaUpdate = 1 := by
  constructor
  · intro ss cs
    have hf : (fun s c => EMA.update_average ema_decay s c)
        = fun s c : ℚ => (0.995 : ℚ) * s + (0.005 : ℚ) * c := by
      funext s c
      norm_num [EMA.update_average, ema_decay]
    rw [EMA.step_ema, hf]
  · intro cfg B e s
    simp only [TrainLoop.stepEvents, List.countP_append]
    split <;> split <;>
      simp_all [List.countP_cons, List.countP_nil, Event.isEmaUpdate]

/-- C9 counterexample: immediately after construction, the `global_step`
attribute is not set to the sentinel 1 — it is not assigned at all. -/
theorem c9_init_counterexample :
    ¬ ((TrainLoop.init ⟨[("w", (1 : ℚ))], true⟩ [] true).global_step = some 1) := by
  simp [TrainLoop.init]

/-- C9 (amended): after construction the epoch counter and the rolling metric
fields (train/test/shuffle divergences and sequence similarity) are 1, the
global step counter is not yet assigned, and on the main process the EMA model
is a copy of the model's parameters with gradient tracking disabled. -/
theorem c9_init_amended (m : Model) (opt : OptState) (is_main : Bool) :
    (TrainLoop.init m opt is_main).start_epoch = 1
    ∧ (TrainLoop.init m opt is_main).train_kl = 1
    ∧ (TrainLoop.init m opt is_main).test_kl = 1
    ∧ (TrainLoop.init m opt is_main).shuffle_kl = 1
    ∧ (TrainLoop.init m opt is_main).seq_similarity = 1
    ∧ (TrainLoop.init m opt is_main).global_step = none
    ∧ (TrainLoop.init m opt is_main).ema_model
        = (if is_main then some { params := m.params, requires_grad := false } else none) :=
  ⟨rfl, rfl, rfl, rfl, rfl, rfl, rfl⟩

theorem flatMap_const_nil {α β : Type} (l : List α) :
    (l.flatMap fun _ => ([] : List β)) = [] := by
  induction l with
  | nil => simp
  | cons a t ih => simp [ih]

theorem epochs_epochEvents (cfg : Config) (is_main : Bool) (B : ℕ) (rd : RunData) (e : ℕ) :
    epochsOf (TrainLoop.epochEvents cfg is_main B rd e) = [e] := by
  simp only [epochsOf, TrainLoop.epochEvents, List.filterMap_cons, List.filterMap_append]
  rw [filterMap_flatMap]
  have hsteps : ((List.range B).flatMap fun s =>
        (TrainLoop.stepEvents cfg is_main B e s).filterMap Event.epochOf)
      = (List.range B).flatMap fun _ => ([] : List ℕ) := by
    congr 1
    funext s
    simp only [TrainLoop.stepEvents, List.filterMap_append]
    split <;> split <;> simp [Event.epochOf]
  rw [hsteps, flatMap_const_nil]
  have hrest :
      ((if e % cfg.sample_epoch == 0 && is_main then TrainLoop.sample cfg rd.synt_df
          else []).filterMap Event.epochOf = ([] : List ℕ))
      ∧ ((if e % cfg.save_epoch == 0 && is_main then [TrainLoop.save_model cfg rd e]
          else []).filterMap Event.epochOf = ([] : List ℕ))
      ∧ ((if cfg.save_lora_function && (e % cfg.lora_save_epoch == 0) && is_main then
            [Event.loraSave (save_lora_model_path cfg.lora_path e)]
          else []).filterMap Event.epochOf = ([] : List ℕ)) := by
    refine ⟨?_, ?_, ?_⟩ <;>
      · split <;>
          simp [TrainLoop.sample, TrainLoop.save_model, Event.epochOf]
  rw [hrest.1, hrest.2.1, hrest.2.2]
  simp [Event.epochOf]

theorem epochs_chunk (cfg : Config) (is_main : Bool) (B : ℕ) (rd : RunData) :
    ∀ (n start : ℕ),
      epochsOf ((List.range' start n).flatMap (TrainLoop.epochEvents cfg is_main B rd))
        = List.range' start n := by
  intro n
  induction n with
  | zero => intro start; simp [epochsOf]
  | succ n ih =>
    intro start
    have h1 := epochs_epochEvents cfg is_main B rd start
    have h2 := ih (start + 1)
    simp only [epochsOf] at h1 h2 ⊢
    rw [List.range'_succ, List.flatMap_cons, List.filterMap_append, h1, h2]
    rfl

theorem epochs_train_loop (cfg : Config) (is_main : Bool) (B : ℕ) (rd : RunData)
    (start : ℕ) :
    epochsOf (TrainLoop.train_loop cfg is_main B rd start)
      = List.range' start (cfg.epochs + 1 - start) := by
  have h := epochs_chunk cfg is_main B rd (cfg.epochs + 1 - start) start
  simp only [epochsOf] at h ⊢
  cases is_main <;>
    simp [TrainLoop.train_loop, List.filterMap_cons, Event.epochOf, h]

theorem steps_any_false (cfg : Config) (is_main : Bool) (B e : ℕ) {p : Event → Bool}
    (h1 : ∀ gs, p (Event.trainStep gs) = false)
    (h2 : ∀ gs, p (Event.emaUpdate gs) = false)
    (h3 : ∀ gs ep, p (Event.logStep gs ep) = false) :
    ((List.range B).flatMap (TrainLoop.stepEvents cfg is_main B e)).any p = false := by
  rw [any_flatMap, List.any_eq_false]
  intro s _
  simp only [TrainLoop.stepEvents, List.any_append, List.any_cons, List.any_nil, h1,
    Bool.false_or, Bool.or_false]
  split <;> split <;> simp [h2, h3]

/-- C1: within each epoch e, the loop invokes Sampling iff
`e % sample_epoch == 0` on the main process, Saving iff `e % save_epoch == 0`
on the main process, and the LoRA export iff a LoRA saver was supplied and
`e % lora_save_epoch == 0` on the main process; the three guards are
independent of each other; the control loop runs the epoch body exactly for
the epochs from the start epoch through the configured total. -/
theorem c1_phase_guards (cfg : Config) (is_main : Bool) (B : ℕ) (rd : RunData)
    (e start : ℕ) :
    (epochsOf (TrainLoop.train_loop cfg is_main B rd start)
        = List.range' start (cfg.epochs + 1 - start))
    ∧ ((TrainLoop.epochEvents cfg is_main B rd e).any Event.isSampling
        = (e % cfg.sample_epoch == 0 && is_main))
    ∧ ((TrainLoop.epochEvents cfg is_main B rd e).any Event.isSaving
        = (e % cfg.save_epoch == 0 && is_main))
    ∧ ((TrainLoop.epochEvents cfg is_main B rd e).any Event.isLoraExport
        = (cfg.save_lora_function && (e % cfg.lora_save_epoch == 0) && is_main)) := by
  have hsamp := steps_any_false cfg is_main B e (p := Event.isSampling)
    (fun _ => rfl) (fun _ => rfl) (fun _ _ => rfl)
  have hsave := steps_any_false cfg is_main B e (p := Event.isSaving)
    (fun _ => rfl) (fun _ => rfl) (fun _ _ => rfl)
  have hlora := steps_any_false cfg is_main B e (p := Event.isLoraExport)
    (fun _ => rfl) (fun _ => rfl) (fun _ _ => rfl)
  refine ⟨epochs_train_loop cfg is_main B rd start, ?_, ?_, ?_⟩ <;>
  · cases h1 : (e % cfg.sample_epoch == 0 && is_main) <;>
      cases h2 : (e % cfg.save_epoch == 0 && is_main) <;>
        cases h3 : (cfg.save_lora_function && (e % cfg.lora_save_epoch == 0) && is_main) <;>
          cases hm : cfg.metric_function <;>
            simp [TrainLoop.epochEvents, TrainLoop.sample, TrainLoop.save_model, h1, h2, h3,
              hm, hsamp, hsave, hlora, Event.isSampling, Event.isSaving, Event.isLoraExport]

theorem gs_stepEvents (cfg : Config) (is_main : Bool) (B e s : ℕ) :
    globalStepsOf (TrainLoop.stepEvents cfg is_main B e s) = [e * B + s] := by
  simp only [globalStepsOf, TrainLoop.stepEvents, List.filterMap_append]
  split <;> split <;> simp [Event.trainStepOf]

theorem gs_epochEvents (cfg : Config) (is_main : Bool) (B : ℕ) (rd : RunData) (e : ℕ) :
    globalStepsOf (TrainLoop.epochEvents cfg is_main B rd e) = List.range' (e * B) B := by
  simp only [globalStepsOf, TrainLoop.epochEvents, List.filterMap_cons, List.filterMap_append]
  rw [filterMap_flatMap]
  have h2 : ((List.range B).flatMap fun s =>
        (TrainLoop.stepEvents cfg is_main B e s).filterMap Event.trainStepOf)
      = (List.range B).flatMap fun s => [e * B + s] := by
    congr 1
    funext s
    exact gs_stepEvents cfg is_main B e s
  rw [show Event.trainStepOf (Event.modelTrain e) = none from rfl]
  rw [h2, flatMap_singleton_fn, List.range'_eq_map_range]
  have hrest :
      ((if e % cfg.sample_epoch == 0 && is_main then TrainLoop.sample cfg rd.synt_df
          else []).filterMap Event.trainStepOf = ([] : List ℕ))
      ∧ ((if e % cfg.save_epoch == 0 && is_main then [TrainLoop.save_model cfg rd e]
          else []).filterMap Event.trainStepOf = ([] : List ℕ))
      ∧ ((if cfg.save_lora_function && (e % cfg.lora_save_epoch == 0) && is_main then
            [Event.loraSave (save_lora_model_path cfg.lora_path e)]
          else []).filterMap Event.trainStepOf = ([] : List ℕ)) := by
    refine ⟨?_, ?_, ?_⟩ <;>
      · split <;>
          simp [TrainLoop.sample, TrainLoop.save_model, Event.trainStepOf]
  rw [hrest.1, hrest.2.1, hrest.2.2]
  simp

theorem gs_chunk (cfg : Config) (is_main : Bool) (B : ℕ) (rd : RunData) :
    ∀ (n start : ℕ),
      globalStepsOf ((List.range' start n).flatMap (TrainLoop.epochEvents cfg is_main B rd))
        = List.range' (start * B) (n * B) := by
  intro n
  induction n with
  | zero => intro start; simp [globalStepsOf]
  | succ n ih =>
    intro start
    have h1 := gs_epochEvents cfg is_main B rd start
    have h2 := ih (start + 1)
    simp only [globalStepsOf] at h1 h2 ⊢
    rw [List.range'_succ, List.flatMap_cons, List.filterMap_append, h1, h2]
    have hs : (start + 1) * B = start * B + B := by ring
    rw [hs, List.range'_append_1]
    congr 1
    ring

theorem gs_train_loop (cfg : Config) (is_main : Bool) (B : ℕ) (rd : RunData) (start : ℕ) :
    globalStepsOf (TrainLoop.train_loop cfg is_main B rd start)
      = List.range' (start * B) ((cfg.epochs + 1 - start) * B) := by
  have h := gs_chunk cfg is_main B rd (cfg.epochs + 1 - start) start
  simp only [globalStepsOf] at h ⊢
  cases is_main <;>
    simp [TrainLoop.train_loop, List.filterMap_cons, Event.trainStepOf, h]

/-- C2: each gradient step of epoch e at batch index s is assigned global step
`e * B + s` (B the number of batches per epoch), and the sequence of global
steps assigned over the whole run is strictly increasing. -/
theorem c2_global_step (cfg : Config) (is_main : Bool) (B : ℕ) (rd : RunData)
    (start e s : ℕ) :
    globalStepsOf (TrainLoop.stepEvents cfg is_main B e s) = [e * B + s]
    ∧ List.Pairwise (· < ·) (globalStepsOf (TrainLoop.train_loop cfg is_main B rd start)) := by
  refine ⟨gs_stepEvents cfg is_main B e s, ?_⟩
  rw [gs_train_loop]
  exact List.pairwise_lt_range' _ _

/-- C8: a non-main process never performs any of the main-process-only side
effects (telemetry writes, sampler calls with their metric evaluation,
checkpoint writes, adapter exports) in any epoch of any run. -/
theorem c8_main_process_only (cfg : Config) (B : ℕ) (rd : RunData) (start : ℕ) :
    (TrainLoop.train_loop cfg false B rd start).filter Event.isMainOnlySideEffect = [] := by
  rw [List.filter_eq_nil_iff]
  intro a ha
  simp [TrainLoop.train_loop, TrainLoop.epochEvents, TrainLoop.stepEvents] at ha
  rcases ha with rfl | ⟨e, _, rfl | ⟨s, _, rfl⟩⟩ <;> simp [Event.isMainOnlySideEffect]

theorem lookup_none_of_not_mem_keys (k : String) (sd : StateDict)
    (h : ¬ k ∈ sd.map Prod.fst) : List.lookup k sd = none := by
  induction sd with
  | nil => rfl
  | cons p t ih =>
    obtain ⟨a, b⟩ := p
    simp only [List.map_cons, List.mem_cons, not_or] at h
    have hbeq : (k == a) = false := beq_eq_false_iff_ne.mpr h.1
    simp [List.lookup, hbeq, ih h.2]

theorem mem_keys_of_lookup_some {k : String} {sd : StateDict} {v : ℚ}
    (h : List.lookup k sd = some v) : k ∈ sd.map Prod.fst := by
  induction sd with
  | nil => simp [List.lookup] at h
  | cons p t ih =>
    obtain ⟨a, b⟩ := p
    simp only [List.lookup] at h
    cases hk : k == a
    · simp only [hk] at h
      simp [List.map_cons, ih h]
    · simp [List.map_cons, beq_iff_eq.mp hk]

theorem lookup_load_non_strict (k : String) (v : ℚ) (cur ckpt : StateDict)
    (h1 : List.lookup k cur = some v) (h2 : ¬ k ∈ ckpt.map Prod.fst) :
    List.lookup k (cur.map (fun p => (p.1, (List.lookup p.1 ckpt).getD p.2)))
      = some v := by
  induction cur with
  | nil => simp [List.lookup] at h1
  | cons p t ih =>
    obtain ⟨a, b⟩ := p
    simp only [List.map_cons, List.lookup] at h1 ⊢
    cases hk : k == a
    · simp only [hk] at h1 ⊢
      exact ih h1
    · simp only [hk] at h1 ⊢
      have ha : k = a := beq_iff_eq.mp hk
      subst ha
      rw [lookup_none_of_not_mem_keys _ _ h2]
      simpa using h1

/-- C4: on resume, the trained-model restore is non-strict — a checkpoint
missing a newly added parameter loads successfully and the new parameter keeps
its current (initialized) value — while the EMA-model restore is strict and
fails on the same mismatch. -/
theorem c4_load_strictness (cur ckpt : StateDict) (k : String) (v : ℚ)
    (h1 : List.lookup k cur = some v) (h2 : ¬ k ∈ ckpt.map Prod.fst) :
    (∃ m, load_state_dict cur ckpt false = Except.ok m ∧ List.lookup k m = some v)
    ∧ load_state_dict cur ckpt true = Except.error "Error(s) in loading state_dict" := by
  constructor
  · exact ⟨_, rfl, lookup_load_non_strict k v cur ckpt h1 h2⟩
  · have hmem : k ∈ cur.map Prod.fst := mem_keys_of_lookup_some h1
    have hc : ((ckpt.map Prod.fst).contains k) = false := by
      rw [List.contains_eq_any_beq, List.any_eq_false]
      intro x hx hbeq
      have hkx : k = x := beq_iff_eq.mp hbeq
      subst hkx
      exact h2 hx
    have hA : ((cur.map Prod.fst).all fun k2 => (ckpt.map Prod.fst).contains k2) = false :=
      List.all_eq_false.mpr ⟨k, hmem, by simp only [hc]; exact Bool.false_ne_true⟩
    unfold load_state_dict
    rw [hA]
    simp

/-- C4 witness: a model with a new parameter "new" absent from the checkpoint. -/
theorem c4_load_strictness_witness :
    (∃ m, load_state_dict [("w", (1 : ℚ)), ("new", (5 : ℚ))] [("w", (2 : ℚ))] false
            = Except.ok m
        ∧ List.lookup "new" m = some 5)
    ∧ load_state_dict [("w", (1 : ℚ)), ("new", (5 : ℚ))] [("w", (2 : ℚ))] true
        = Except.error "Error(s) in loading state_dict" :=
  c4_load_strictness _ _ "new" 5 (by decide) (by decide)

/-- C7: `load(path, start_train)` restores the trained model non-strictly,
restores the optimizer state, sets the starting epoch to the checkpoint's
stored epoch, and re-enters the control loop running exactly the epochs from
the restored epoch through the configured total iff `start_train` is true;
with the flag false no further epochs run. -/
theorem c7_resume (cfg : Config) (st : TrainLoopState) (is_main : Bool) (B : ℕ)
    (rd : RunData) (cp : Checkpoint) (start_train : Bool) (st2 : TrainLoopState)
    (tr : List Event)
    (h : TrainLoop.load cfg st is_main B rd cp start_train = Except.ok (st2, tr)) :
    st2.start_epoch = cp.epoch
    ∧ st2.optimizer = cp.optimizer
    ∧ load_state_dict st.model.params cp.model false = Except.ok st2.model.params
    ∧ tr = (if start_train then TrainLoop.train_loop cfg is_main B rd cp.epoch else [])
    ∧ epochsOf tr
        = (if start_train then List.range' cp.epoch (cfg.epochs + 1 - cp.epoch) else []) := by
  unfold TrainLoop.load at h
  have hns : load_state_dict st.model.params cp.model false
      = Except.ok (st.model.params.map
          (fun p => (p.1, (List.lookup p.1 cp.model).getD p.2))) := rfl
  rw [hns] at h
  cases is_main with
  | false =>
    cases start_train with
    | false =>
      simp only [Except.ok.injEq, Prod.mk.injEq] at h
      obtain ⟨hst, htr⟩ := h
      subst hst
      subst htr
      exact ⟨rfl, rfl, hns, rfl, rfl⟩
    | true =>
      simp only [Except.ok.injEq, Prod.mk.injEq] at h
      obtain ⟨hst, htr⟩ := h
      subst hst
      subst htr
      exact ⟨rfl, rfl, hns, rfl, by simp [epochs_train_loop]⟩
  | true =>
    cases hem : st.ema_model with
    | none =>
      simp only [hem] at h
      cases h
    | some em =>
      simp only [hem] at h
      cases hld : load_state_dict em.params cp.ema_model true with
      | error e2 =>
        rw [hld] at h
        cases h
      | ok em2 =>
        rw [hld] at h
        cases start_train with
        | false =>
          simp only [Except.ok.injEq, Prod.mk.injEq] at h
          obtain ⟨hst, htr⟩ := h
          subst hst
          subst htr
          exact ⟨rfl, rfl, hns, rfl, rfl⟩
        | true =>
          simp only [Except.ok.injEq, Prod.mk.injEq] at h
          obtain ⟨hst, htr⟩ := h
          subst hst
          subst htr
          exact ⟨rfl, rfl, hns, rfl, by simp [epochs_train_loop]⟩

/-- Concrete model used by the resume witness. -/
def loadW_model : Model := { params := [("w", 1)], requires_grad := true }

/-- Concrete post-construction state used by the resume witness. -/
def loadW_st : TrainLoopState := TrainLoop.init loadW_model [] false

/-- Concrete checkpoint used by the resume witness. -/
def loadW_cp : Checkpoint :=
  { model := [("w", 2)], optimizer := [("m", 3)], epoch := 4, ema_model := [("w", 2)] }

/-- Concrete run data used by the resume witness. -/
def loadW_rd : RunData := { model_sd := [], opt_sd := [], ema_sd := [], synt_df := [] }

/-- Concrete post-load state used by the resume witness. -/
def loadW_st2 : TrainLoopState :=
  { loadW_st with
      model := { loadW_st.model with params := [("w", 2)] }
      optimizer := [("m", 3)]
      start_epoch := 4 }

/-- C7 witness: a concrete resume with the flag false returns the restored
state and runs no epochs. -/
theorem c7_resume_witness :
    loadW_st2.start_epoch = loadW_cp.epoch
    ∧ loadW_st2.optimizer = loadW_cp.optimizer
    ∧ load_state_dict loadW_st.model.params loadW_cp.model false
        = Except.ok loadW_st2.model.params
    ∧ ([] : List Event)
        = (if false then TrainLoop.train_loop ({} : Config) false 1 loadW_rd loadW_cp.epoch
           else [])
    ∧ epochsOf ([] : List Event)
        = (if false then List.range' loadW_cp.epoch (({} : Config).epochs + 1 - loadW_cp.epoch)
           else []) :=
  c7_resume {} loadW_st false 1 loadW_rd loadW_cp false loadW_st2 [] rfl

end DNADiffusion
